import Mathlib

/-!
Verification of the webhook listener registry / event dispatcher
(`whatsapp-server/src/repository/eventManager.ts`) and the media lifecycle
store (`whatsapp-server/src/repository/mediaHandler.ts`).

The TypeScript classes are shallowly embedded: each method becomes a pure
Lean function from the explicit object state (plus the outcomes of the
I/O actions the method performs) to the new state and the value the method
returns.  JavaScript `number` ids are embedded as `Int`; timestamps
(`Date.now()` milliseconds) as `Int`; the string-keyed JavaScript object
used as the media cache as an association list whose keys are unique in
every reachable state.
-/

/- ================== EventManager (eventManager.ts) ================== -/

/-- `interface Listener { id: number; url: string; failedAttempts: number }`. -/
structure Listener where
  id : Int
  url : String
  failedAttempts : Nat
deriving DecidableEq

/-- The mutable state of `class EventManager`: the `listeners` array and the
`nextId` counter. -/
structure EventManager where
  listeners : List Listener
  nextId : Int
deriving DecidableEq

/-- `constructor() { this.listeners = []; this.nextId = 0; }` -/
def EventManager.new : EventManager := ⟨[], 0⟩

/-- `hasListener(url)`: linear scan for a listener with the given url
(the source loop with `break` is an existence check). -/
def EventManager.hasListener (m : EventManager) (url : String) : Bool :=
  m.listeners.any (fun l => l.url == url)

/-- `addListener(url)`: returns `-1` if the url is already registered,
otherwise pushes `{ id: nextId++, url, failedAttempts: 0 }` and returns the
assigned id.  Result is `(returned id, new state)`. -/
def EventManager.addListener (m : EventManager) (url : String) : Int × EventManager :=
  if m.hasListener url then (-1, m)
  else (m.nextId,
    { listeners := m.listeners ++ [⟨m.nextId, url, 0⟩], nextId := m.nextId + 1 })

/-- `getListeners()`. -/
def EventManager.getListeners (m : EventManager) : List Listener :=
  m.listeners

/-- `removeListener(id)`: `this.listeners = this.listeners.filter(l => l.id !== id)`. -/
def EventManager.removeListener (m : EventManager) (id : Int) : EventManager :=
  { m with listeners := m.listeners.filter (fun l => l.id != id) }

/-- `filterInvalidListeners()`: keeps exactly the listeners with
`failedAttempts < 3`. -/
def EventManager.filterInvalidListeners (m : EventManager) : EventManager :=
  { m with listeners := m.listeners.filter (fun l => l.failedAttempts < 3) }

/-- How the `fetch(request, { signal })` promise inside `notifyListener`
settles: it either resolves with an HTTP response (carrying some status
code — `fetch` resolves even for 4xx/5xx responses), or rejects (network
error, or abort via the shared deadline signal). -/
inductive FetchOutcome where
  | resolved (status : Nat)
  | rejected
deriving DecidableEq

/-- `notifyListener(listener, evt, abortSignal)`: `try { await fetch(...);
listener.failedAttempts = 0; } catch { listener.failedAttempts++; }`.
The response object is never inspected, so any resolved fetch takes the
success branch. -/
def notifyListener (l : Listener) (outcome : FetchOutcome) : Listener :=
  match outcome with
  | .resolved _ => { l with failedAttempts := 0 }
  | .rejected => { l with failedAttempts := l.failedAttempts + 1 }

/-- `dispatchEvent(evt)`: every registered listener gets exactly one
delivery attempt (`Promise.all(this.listeners.map(l => notifyListener(...)))`),
after which `filterInvalidListeners()` runs.  `outcome` gives how each
listener's fetch settles in this round. -/
def EventManager.dispatchEvent (m : EventManager) (outcome : Listener → FetchOutcome) :
    EventManager :=
  EventManager.filterInvalidListeners
    { m with listeners := m.listeners.map (fun l => notifyListener l (outcome l)) }

/-- Operations an external caller can perform on the registry
(`addListener` / `removeListener`), for stating reachability invariants. -/
inductive RegistryOp where
  | add (url : String)
  | remove (id : Int)
deriving DecidableEq

/-- Apply one registry operation (discarding the value returned to the caller). -/
def applyRegistryOp (m : EventManager) : RegistryOp → EventManager
  | .add u => (m.addListener u).2
  | .remove i => m.removeListener i

/-- Run a sequence of registry operations from the fresh registry. -/
def runRegistryOps (ops : List RegistryOp) : EventManager :=
  ops.foldl applyRegistryOp EventManager.new

/- ================== MediaHandler (mediaHandler.ts) ================== -/

/-- One value of `_mediaCache`: `{ path: string, updated: number }`
(`updated` is a `Date.now()` millisecond timestamp). -/
structure CacheEntry where
  path : String
  updated : Int
deriving DecidableEq

/-- The string-keyed JavaScript object `_mediaCache`, embedded as an
association list.  A JavaScript object holds at most one value per key;
`cacheSet` overwrites in place, so reachable caches have pairwise distinct
keys (`CacheKeysNodup`). -/
abbrev MediaCache := List (String × CacheEntry)

/-- `this._mediaCache[fileId] = v`: overwrite if the key is present,
otherwise append. -/
def cacheSet (c : MediaCache) (k : String) (v : CacheEntry) : MediaCache :=
  if c.any (fun p => p.1 == k) then c.map (fun p => if p.1 == k then (k, v) else p)
  else c ++ [(k, v)]

/-- `delete this._mediaCache[fileId]`. -/
def cacheDelete (c : MediaCache) (k : String) : MediaCache :=
  c.filter (fun p => p.1 != k)

/-- `this._mediaCache[fileId]` as a read (`undefined` ↦ `none`). -/
def cacheGet (c : MediaCache) (k : String) : Option CacheEntry :=
  (c.find? (fun p => p.1 == k)).map Prod.snd

/-- Keys of a JavaScript object are pairwise distinct; every reachable
`_mediaCache` satisfies this. -/
abbrev CacheKeysNodup (c : MediaCache) : Prop :=
  (c.map Prod.fst).Nodup

/-- The state of `class MediaHandler`: `_mediaDirectory`, `_mediaCache`
and `_fileClearInterval` (milliseconds). -/
structure MediaHandler where
  mediaDirectory : String
  mediaCache : MediaCache
  fileClearInterval : Int
deriving DecidableEq

/-- `getOutgoingMediaDirectory()`: `` `${this._mediaDirectory}/userMedia` ``
(the `mkdirSync` side effect does not affect the returned path). -/
def MediaHandler.getOutgoingMediaDirectory (h : MediaHandler) : String :=
  h.mediaDirectory ++ "/userMedia"

/-- One row of the imported `mimetypes.json` table:
`{ mimetype, extension }`. -/
structure MimeTypeMap where
  mimetype : String
  extension : String
deriving DecidableEq

/-- `getFileExtension(mimeType)`: first table row with a matching
`mimetype`, else `throw new Error("Unsupported MIME type: ...")`
(embedded as `Except.error` with the thrown message). -/
def getFileExtension (table : List MimeTypeMap) (mimeType : String) : Except String String :=
  match table.find? (fun m => m.mimetype == mimeType) with
  | none => .error ("Unsupported MIME type: " ++ mimeType)
  | some m => .ok m.extension

/-- Everything observable about one `saveUploadedMedia(file)` call:
the state left behind, what the immediate caller gets (`Except.error` for
an exception that propagates out of the call, `Except.ok` for the returned
`fileId`), any exception thrown later inside the `file.mv` completion
callback (which the caller of `saveUploadedMedia` can never observe), and
whether the bytes ended up on disk. -/
structure SaveResult where
  state : MediaHandler
  ret : Except String String
  callbackThrown : Option String
  fileWritten : Bool

/-- `saveUploadedMedia(file)`.  `fileId` is the value produced by
`generateFileId()` (a fresh hyphen-free UUID), `now` the `Date.now()`
timestamp, `mvError` the error (if any) that `file.mv` passes to its
completion callback.  The source calls `file.mv(filePath, (err) => {
if (err) throw ... })`: the callback runs asynchronously, so the throw
never reaches the caller — the method registers the cache record and
returns `fileId` regardless, and the error surfaces only as
`callbackThrown`. -/
def MediaHandler.saveUploadedMedia (h : MediaHandler) (table : List MimeTypeMap)
    (fileId : String) (mimetype : String) (now : Int) (mvError : Option String) :
    SaveResult :=
  match getFileExtension table mimetype with
  | .error e => { state := h, ret := .error e, callbackThrown := none, fileWritten := false }
  | .ok ext =>
    let filePath := h.getOutgoingMediaDirectory ++ "/" ++ fileId ++ "." ++ ext
    { state := { h with mediaCache := cacheSet h.mediaCache fileId ⟨filePath, now⟩ }
      ret := .ok fileId
      callbackThrown := mvError.map (fun e => "Failed to move file: " ++ e)
      fileWritten := mvError.isNone }

/-- `getFilePath(fileId)`: `this._mediaCache[fileId]?.path`. -/
def MediaHandler.getFilePath (h : MediaHandler) (fileId : String) : Option String :=
  (cacheGet h.mediaCache fileId).map CacheEntry.path

/-- `deleteFile(fileId)` ("consume").  `unlinkError` is the error (if any)
with which `fs.promises.unlink` rejects.  Returns the new state and the
message logged by `console.error` (`none` when nothing was logged); the
method itself never throws: the cache record is removed in the `finally`
block whether or not `unlink` failed, and an unknown id returns early. -/
def MediaHandler.deleteFile (h : MediaHandler) (fileId : String)
    (unlinkError : Option String) : MediaHandler × Option String :=
  match cacheGet h.mediaCache fileId with
  | none => (h, none)
  | some _ =>
    ({ h with mediaCache := cacheDelete h.mediaCache fileId },
     unlinkError.map (fun e => "Failed to delete file: " ++ e))

/-- `deleteOldFiles()` (the sweep).  Iterates the entries of
`_mediaCache` (`Object.entries` snapshots them); every entry with
`now - updated <= _fileClearInterval` is skipped (`continue`), every other
entry has its file unlinked (errors only logged) and its cache record
deleted unconditionally.  Returns the new state and the paths whose
deletion was attempted, in iteration order. -/
def MediaHandler.deleteOldFiles (h : MediaHandler) (now : Int) :
    MediaHandler × List String :=
  let r := h.mediaCache.foldl
    (fun (acc : MediaCache × List String) e =>
      if now - e.2.updated ≤ h.fileClearInterval then acc
      else (cacheDelete acc.1 e.1, acc.2 ++ [e.2.path]))
    (h.mediaCache, [])
  ({ h with mediaCache := r.1 }, r.2)

/-- Modelled from the spec: the contents of `mimetypes.json` are not part
of the sources at hand, only the table's shape and two sample rows are
("image/png" is supported, "application/x-bogus" is not).  This concrete
table is used only to instantiate theorems that hold for every table. -/
def specMimeTypes : List MimeTypeMap :=
  [⟨"image/png", "png"⟩, ⟨"image/jpeg", "jpg"⟩, ⟨"application/pdf", "pdf"⟩]

/-- Structural invariant of the listener registry: the id counter is
nonnegative, every stored id is nonnegative and below the counter, and
stored ids are pairwise distinct. -/
def RegistryInv (m : EventManager) : Prop :=
  0 ≤ m.nextId ∧
  (∀ l ∈ m.listeners, 0 ≤ l.id ∧ l.id < m.nextId) ∧
  (m.listeners.map Listener.id).Nodup

/-- The ids handed out by the successful `addListener` calls of an
operation sequence run from state `m`, in order (rejected adds and
removes assign nothing). -/
def assignedIds (m : EventManager) : List RegistryOp → List Int
  | [] => []
  | op :: rest =>
    (match op with
     | .add u => if m.hasListener u then [] else [(m.addListener u).1]
     | .remove _ => []) ++ assignedIds (applyRegistryOp m op) rest

/- ======================= Helper lemmas ======================= -/

theorem notifyListener_id (l : Listener) (o : FetchOutcome) :
    (notifyListener l o).id = l.id := by
  cases o <;> rfl

theorem notifyListener_url (l : Listener) (o : FetchOutcome) :
    (notifyListener l o).url = l.url := by
  cases o <;> rfl

/-- Membership in the listener list after a dispatch round: every
survivor has fewer than 3 failures and is the round's update of some
listener from before the round. -/
theorem dispatchEvent_mem (m : EventManager) (o : Listener → FetchOutcome)
    (l : Listener) (hl : l ∈ (m.dispatchEvent o).listeners) :
    l.failedAttempts < 3 ∧ ∃ l₀ ∈ m.listeners, l = notifyListener l₀ (o l₀) := by
  unfold EventManager.dispatchEvent EventManager.filterInvalidListeners at hl
  simp only [List.mem_filter, List.mem_map, decide_eq_true_eq] at hl
  obtain ⟨⟨l₀, h₀, rfl⟩, hlt⟩ := hl
  exact ⟨hlt, l₀, h₀, rfl⟩

/- ======================= Claim theorems ======================= -/

/-- C1 (counterexample): the claim says a delivery attempt that fails by
a *non-success HTTP response* increments `failedAttempts`.  In the source,
`fetch` resolves for an HTTP 500 response, the response status is never
inspected, and the success branch runs: for a listener with one prior
failure the counter becomes 0, not 2. -/
theorem C1_counterexample :
    (notifyListener ⟨0, "http://x/hook", 1⟩ (FetchOutcome.resolved 500)).failedAttempts = 0 ∧
    (notifyListener ⟨0, "http://x/hook", 1⟩ (FetchOutcome.resolved 500)).failedAttempts ≠ 1 + 1 := by
  exact ⟨rfl, by decide⟩

/-- C1 (amended): a delivery attempt increments `failedAttempts` exactly
when the `fetch` promise rejects (network error, or cancellation via the
shared deadline signal); whenever the promise resolves — whatever the
HTTP status code of the response — the counter is reset to 0. -/
theorem C1_failure_accounting (l : Listener) (o : FetchOutcome) :
    (notifyListener l o).failedAttempts =
      (match o with
       | .resolved _ => 0
       | .rejected => l.failedAttempts + 1) := by
  cases o <;> rfl


/-- C3: from any state in which `u` is not yet registered, `add(u)`
returns the fresh id `nextId`, an immediately repeated `add(u)` returns
the sentinel `-1` and leaves the state unchanged, and exactly one
listener with url `u` is registered afterwards. -/
theorem C3_add_twice (m : EventManager) (u : String)
    (h : m.hasListener u = false) :
    (m.addListener u).1 = m.nextId ∧
    ((m.addListener u).2.addListener u).1 = -1 ∧
    ((m.addListener u).2.addListener u).2 = (m.addListener u).2 ∧
    (((m.addListener u).2.addListener u).2.listeners.filter
        (fun l => l.url == u)).length = 1 := by
  have h1 : m.addListener u =
      (m.nextId, ⟨m.listeners ++ [⟨m.nextId, u, 0⟩], m.nextId + 1⟩) := by
    unfold EventManager.addListener
    rw [h]
    rfl
  have h2 : (⟨m.listeners ++ [⟨m.nextId, u, 0⟩], m.nextId + 1⟩ :
      EventManager).hasListener u = true := by
    unfold EventManager.hasListener
    simp
  have h3 : (⟨m.listeners ++ [⟨m.nextId, u, 0⟩], m.nextId + 1⟩ :
      EventManager).addListener u =
      (-1, ⟨m.listeners ++ [⟨m.nextId, u, 0⟩], m.nextId + 1⟩) := by
    unfold EventManager.addListener
    rw [h2]
    rfl
  have hfil : m.listeners.filter (fun l => l.url == u) = [] := by
    rw [List.filter_eq_nil_iff]
    intro a ha hua
    unfold EventManager.hasListener at h
    have hany : m.listeners.any (fun l => l.url == u) = true :=
      List.any_eq_true.mpr ⟨a, ha, hua⟩
    rw [h] at hany
    cases hany
  refine ⟨by rw [h1], by rw [h1, h3], by rw [h1, h3], ?_⟩
  rw [h1, h3]
  simp only [List.filter_append, hfil]
  simp

/-- Witness for C3 at the fresh registry and the url of the spec's
scenario. -/
theorem C3_add_twice_witness :
    EventManager.new.hasListener "http://x/hook" = false ∧
    ((EventManager.new.addListener "http://x/hook").1 = EventManager.new.nextId ∧
     ((EventManager.new.addListener "http://x/hook").2.addListener "http://x/hook").1 = -1 ∧
     ((EventManager.new.addListener "http://x/hook").2.addListener "http://x/hook").2 =
       (EventManager.new.addListener "http://x/hook").2 ∧
     (((EventManager.new.addListener "http://x/hook").2.addListener "http://x/hook").2.listeners.filter
         (fun l => l.url == "http://x/hook")).length = 1) :=
  ⟨rfl, C3_add_twice EventManager.new "http://x/hook" rfl⟩

/-- C5: a listener whose delivery attempt in a round resolves (HTTP
success) comes out of the round with `failedAttempts` exactly 0,
whatever its prior failure count — and, since 0 < 3, it survives the
round's pruning. -/
theorem C5_success_resets (m : EventManager) (o : Listener → FetchOutcome)
    (l : Listener) (hl : l ∈ m.listeners) (s : Nat)
    (ho : o l = FetchOutcome.resolved s) :
    { l with failedAttempts := 0 } ∈ (m.dispatchEvent o).listeners := by
  unfold EventManager.dispatchEvent EventManager.filterInvalidListeners
  refine List.mem_filter.mpr ⟨List.mem_map.mpr ⟨l, hl, by rw [ho]; rfl⟩, rfl⟩

/-- Witness for C5: a listener with 2 prior failures whose fetch resolves
with HTTP 200 ends the round with 0 failures. -/
theorem C5_success_resets_witness :
    (⟨0, "http://x/hook", 2⟩ : Listener) ∈
      (⟨[⟨0, "http://x/hook", 2⟩], 1⟩ : EventManager).listeners ∧
    (fun _ : Listener => FetchOutcome.resolved 200) ⟨0, "http://x/hook", 2⟩ =
      FetchOutcome.resolved 200 ∧
    (⟨0, "http://x/hook", 0⟩ : Listener) ∈
      ((⟨[⟨0, "http://x/hook", 2⟩], 1⟩ : EventManager).dispatchEvent
        (fun _ => FetchOutcome.resolved 200)).listeners :=
  ⟨List.mem_singleton.mpr rfl, rfl,
   C5_success_resets ⟨[⟨0, "http://x/hook", 2⟩], 1⟩ _ ⟨0, "http://x/hook", 2⟩
     (List.mem_singleton.mpr rfl) 200 rfl⟩

/-- C4: (1) the per-round prune keeps a listener exactly when it is in
the pre-prune list with fewer than 3 consecutive failures — equivalently
it removes exactly those with `failedAttempts ≥ 3`; (2) consequently a
listener whose delivery attempt rejects in 3 consecutive dispatch rounds
(no intervening success) is absent from the listener list after the third
round. -/
theorem C4_prune_and_escalation :
    (∀ (m : EventManager) (l : Listener),
      l ∈ m.filterInvalidListeners.listeners ↔
        l ∈ m.listeners ∧ l.failedAttempts < 3) ∧
    (∀ (m : EventManager) (i : Int) (o₁ o₂ o₃ : Listener → FetchOutcome),
      (∀ l : Listener, l.id = i → o₁ l = FetchOutcome.rejected) →
      (∀ l : Listener, l.id = i → o₂ l = FetchOutcome.rejected) →
      (∀ l : Listener, l.id = i → o₃ l = FetchOutcome.rejected) →
      ∀ l ∈ (((m.dispatchEvent o₁).dispatchEvent o₂).dispatchEvent o₃).listeners,
        l.id ≠ i) := by
  constructor
  · intro m l
    unfold EventManager.filterInvalidListeners
    simp [List.mem_filter]
  · intro m i o₁ o₂ o₃ h₁ h₂ h₃ l hl hid
    obtain ⟨hlt, l₂, hl₂, rfl⟩ := dispatchEvent_mem _ _ _ hl
    rw [notifyListener_id] at hid
    obtain ⟨-, l₁, hl₁, rfl⟩ := dispatchEvent_mem _ _ _ hl₂
    rw [notifyListener_id] at hid
    obtain ⟨-, l₀, hl₀, rfl⟩ := dispatchEvent_mem _ _ _ hl₁
    rw [notifyListener_id] at hid
    rw [h₁ l₀ hid, h₂ _ (by rw [notifyListener_id]; exact hid),
        h₃ _ (by rw [notifyListener_id, notifyListener_id]; exact hid)] at hlt
    simp [notifyListener] at hlt
    omega

/-- Witness for C4: subscribe one listener, reject its delivery in 3
consecutive rounds; the listener (id 0) is gone afterwards. -/
theorem C4_prune_and_escalation_witness :
    (⟨0, "http://x/hook", 0⟩ : Listener) ∉
      ((((EventManager.new.addListener "http://x/hook").2.dispatchEvent
          (fun _ => FetchOutcome.rejected)).dispatchEvent
          (fun _ => FetchOutcome.rejected)).dispatchEvent
          (fun _ => FetchOutcome.rejected)).listeners := by
  intro hmem
  exact C4_prune_and_escalation.2 (EventManager.new.addListener "http://x/hook").2 0
    (fun _ => FetchOutcome.rejected) (fun _ => FetchOutcome.rejected)
    (fun _ => FetchOutcome.rejected)
    (fun _ _ => rfl) (fun _ _ => rfl) (fun _ _ => rfl) _ hmem rfl

theorem registryInv_new : RegistryInv EventManager.new := by
  refine ⟨le_refl 0, ?_, ?_⟩
  · intro l hl
    cases hl
  · exact List.nodup_nil

theorem addListener_of_not_has (m : EventManager) (u : String)
    (hc : m.hasListener u = false) :
    m.addListener u =
      (m.nextId, ⟨m.listeners ++ [⟨m.nextId, u, 0⟩], m.nextId + 1⟩) := by
  unfold EventManager.addListener
  rw [hc]
  rfl

theorem addListener_of_has (m : EventManager) (u : String)
    (hc : m.hasListener u = true) :
    m.addListener u = (-1, m) := by
  unfold EventManager.addListener
  rw [hc]
  rfl

theorem addListener_state_of_not_has (m : EventManager) (u : String)
    (hc : m.hasListener u = false) :
    (m.addListener u).2 = ⟨m.listeners ++ [⟨m.nextId, u, 0⟩], m.nextId + 1⟩ := by
  rw [addListener_of_not_has m u hc]

theorem addListener_state_of_has (m : EventManager) (u : String)
    (hc : m.hasListener u = true) :
    (m.addListener u).2 = m := by
  rw [addListener_of_has m u hc]

theorem registryInv_step (m : EventManager) (op : RegistryOp)
    (h : RegistryInv m) : RegistryInv (applyRegistryOp m op) := by
  obtain ⟨h0, hb, hnd⟩ := h
  cases op with
  | add u =>
    show RegistryInv (m.addListener u).2
    cases hc : m.hasListener u with
    | true => rw [addListener_state_of_has m u hc]; exact ⟨h0, hb, hnd⟩
    | false =>
      rw [addListener_state_of_not_has m u hc]
      refine ⟨by simp only []; omega, ?_, ?_⟩
      · intro l hl
        simp only [] at hl
        rcases List.mem_append.mp hl with h' | h'
        · have := hb l h'
          simp only []
          omega
        · rw [List.mem_singleton] at h'
          subst h'
          simp only []
          omega
      · simp only [List.map_append, List.map_cons, List.map_nil]
        rw [List.nodup_append]
        refine ⟨hnd, List.nodup_singleton _, ?_⟩
        intro a ha ha'
        rw [List.mem_singleton] at ha'
        subst ha'
        obtain ⟨l, hl, hid⟩ := List.mem_map.mp ha
        have := hb l hl
        omega
  | remove i =>
    show RegistryInv (m.removeListener i)
    refine ⟨h0, ?_, ?_⟩
    · intro l hl
      exact hb l (List.mem_filter.mp hl).1
    · exact hnd.sublist ((List.filter_sublist _).map Listener.id)

theorem registryInv_run (ops : List RegistryOp) :
    RegistryInv (runRegistryOps ops) := by
  suffices h : ∀ m : EventManager, RegistryInv m →
      RegistryInv (ops.foldl applyRegistryOp m) from
    h EventManager.new registryInv_new
  induction ops with
  | nil => exact fun m hm => hm
  | cons op rest ih =>
    intro m hm
    exact ih (applyRegistryOp m op) (registryInv_step m op hm)

theorem assignedIds_cons_add_has (m : EventManager) (u : String)
    (rest : List RegistryOp) (hc : m.hasListener u = true) :
    assignedIds m (RegistryOp.add u :: rest) = assignedIds m rest := by
  simp only [assignedIds, applyRegistryOp, hc]
  rw [addListener_state_of_has m u hc]
  simp

theorem assignedIds_cons_add_not_has (m : EventManager) (u : String)
    (rest : List RegistryOp) (hc : m.hasListener u = false) :
    assignedIds m (RegistryOp.add u :: rest) =
      m.nextId :: assignedIds (m.addListener u).2 rest := by
  simp only [assignedIds, applyRegistryOp, hc]
  rw [addListener_of_not_has m u hc]
  simp

theorem assignedIds_cons_remove (m : EventManager) (i : Int)
    (rest : List RegistryOp) :
    assignedIds m (RegistryOp.remove i :: rest) =
      assignedIds (m.removeListener i) rest := by
  simp only [assignedIds, applyRegistryOp]
  simp

theorem assignedIds_sorted (ops : List RegistryOp) (m : EventManager) :
    (assignedIds m ops).Pairwise (· < ·) ∧
    ∀ i ∈ assignedIds m ops, m.nextId ≤ i := by
  induction ops generalizing m with
  | nil => exact ⟨List.Pairwise.nil, fun i hi => absurd hi (List.not_mem_nil i)⟩
  | cons op rest ih =>
    cases op with
    | add u =>
      cases hc : m.hasListener u with
      | true =>
        rw [assignedIds_cons_add_has m u rest hc]
        exact ih m
      | false =>
        rw [assignedIds_cons_add_not_has m u rest hc]
        have hnext : (m.addListener u).2.nextId = m.nextId + 1 := by
          rw [addListener_state_of_not_has m u hc]
        obtain ⟨hp, hlb⟩ := ih (m.addListener u).2
        refine ⟨List.Pairwise.cons ?_ hp, ?_⟩
        · intro j hj
          have := hlb j hj
          omega
        · intro i hi
          rcases List.mem_cons.mp hi with h' | h'
          · omega
          · have := hlb i h'
            omega
    | remove j =>
      rw [assignedIds_cons_remove m j rest]
      have hnext : (m.removeListener j).nextId = m.nextId := rfl
      obtain ⟨hp, hlb⟩ := ih (m.removeListener j)
      refine ⟨hp, fun i hi => ?_⟩
      have := hlb i hi
      omega

/-- C10: over every sequence of `addListener`/`removeListener` operations
from the fresh registry, the ids handed out by successful adds are
strictly increasing (so an id is never reused, even after its listener
was removed) and nonnegative (so the sentinel `-1` can never collide with
a real id); and at every point the ids stored in the registry are
pairwise distinct and nonnegative. -/
theorem C10_monotonic_fresh_ids :
    (∀ ops : List RegistryOp,
      (assignedIds EventManager.new ops).Pairwise (· < ·) ∧
      ∀ i ∈ assignedIds EventManager.new ops, 0 ≤ i ∧ i ≠ -1) ∧
    (∀ ops : List RegistryOp,
      ((runRegistryOps ops).listeners.map Listener.id).Nodup ∧
      ∀ l ∈ (runRegistryOps ops).listeners, 0 ≤ l.id ∧ l.id ≠ -1) := by
  constructor
  · intro ops
    obtain ⟨hp, hlb⟩ := assignedIds_sorted ops EventManager.new
    refine ⟨hp, fun i hi => ?_⟩
    have h := hlb i hi
    have h0 : EventManager.new.nextId = 0 := rfl
    rw [h0] at h
    constructor <;> omega
  · intro ops
    obtain ⟨h0, hb, hnd⟩ := registryInv_run ops
    refine ⟨hnd, fun l hl => ?_⟩
    have := hb l hl
    constructor <;> omega

/-- Witness for C10 on the run add "a", add "b", remove 0, add "a"
(re-adding a removed url gets the fresh id 2, not a reused 0). -/
theorem C10_monotonic_fresh_ids_witness :
    ((assignedIds EventManager.new
        [RegistryOp.add "a", RegistryOp.add "b", RegistryOp.remove 0,
          RegistryOp.add "a"]).Pairwise (· < ·) ∧
      ((0 : Int) ≤ 0 ∧ (0 : Int) ≠ -1)) ∧
    ((runRegistryOps [RegistryOp.add "a", RegistryOp.add "b",
        RegistryOp.remove 0, RegistryOp.add "a"]).listeners.map
        Listener.id).Nodup :=
  ⟨⟨(C10_monotonic_fresh_ids.1 _).1,
    (C10_monotonic_fresh_ids.1 [RegistryOp.add "a", RegistryOp.add "b",
      RegistryOp.remove 0, RegistryOp.add "a"]).2 0 (by decide)⟩,
   (C10_monotonic_fresh_ids.2 _).1⟩

theorem cacheGet_cacheDelete_self (c : MediaCache) (k : String) :
    cacheGet (cacheDelete c k) k = none := by
  have hfind : (cacheDelete c k).find? (fun p => p.1 == k) = none := by
    rw [List.find?_eq_none]
    intro p hp
    have h2 := (List.mem_filter.mp hp).2
    simp only [bne_iff_ne, ne_eq] at h2
    simp only [beq_iff_eq]
    exact h2
  unfold cacheGet
  rw [hfind]
  rfl

/-- C9: an upload whose declared MIME type appears nowhere in the
supported-type table makes `saveUploadedMedia` throw the
"Unsupported MIME type" error to its caller; on this path the state is
untouched (no cache record) and nothing is written to disk. -/
theorem C9_unsupported_mime (h : MediaHandler) (table : List MimeTypeMap)
    (fileId mt : String) (now : Int) (mv : Option String)
    (habs : ∀ r ∈ table, r.mimetype ≠ mt) :
    (h.saveUploadedMedia table fileId mt now mv).ret =
      Except.error ("Unsupported MIME type: " ++ mt) ∧
    (h.saveUploadedMedia table fileId mt now mv).state = h ∧
    (h.saveUploadedMedia table fileId mt now mv).fileWritten = false := by
  have hfind : table.find? (fun r => r.mimetype == mt) = none := by
    rw [List.find?_eq_none]
    intro r hr
    simpa using habs r hr
  have hext : getFileExtension table mt =
      Except.error ("Unsupported MIME type: " ++ mt) := by
    unfold getFileExtension
    rw [hfind]
  unfold MediaHandler.saveUploadedMedia
  rw [hext]
  exact ⟨rfl, rfl, rfl⟩

/-- Witness for C9 at the spec's scenario `saveUpload(bytes,
"application/x-bogus")`. -/
theorem C9_unsupported_mime_witness :
    (∀ r ∈ specMimeTypes, r.mimetype ≠ "application/x-bogus") ∧
    (((⟨"media", [], 600000⟩ : MediaHandler).saveUploadedMedia specMimeTypes
        "f0" "application/x-bogus" 0 none).ret =
      Except.error ("Unsupported MIME type: " ++ "application/x-bogus") ∧
     ((⟨"media", [], 600000⟩ : MediaHandler).saveUploadedMedia specMimeTypes
        "f0" "application/x-bogus" 0 none).state = ⟨"media", [], 600000⟩ ∧
     ((⟨"media", [], 600000⟩ : MediaHandler).saveUploadedMedia specMimeTypes
        "f0" "application/x-bogus" 0 none).fileWritten = false) :=
  ⟨by decide,
   C9_unsupported_mime ⟨"media", [], 600000⟩ specMimeTypes "f0"
     "application/x-bogus" 0 none (by decide)⟩

/-- C2 (code bug): the spec and the method's own `@throws` documentation
say a failed disk write is surfaced to the caller of `saveUploadedMedia`,
but the source throws inside the asynchronous `file.mv` completion
callback.  At a concrete failing input — a supported upload whose `mv`
reports `EACCES` — the caller still receives the fileId (`Except.ok`),
the bytes are not on disk, and the error exists only as an exception
thrown inside the callback, which no caller observes. -/
theorem C2_mv_error_invisible_to_caller :
    ((⟨"media", [], 600000⟩ : MediaHandler).saveUploadedMedia specMimeTypes
        "0123456789abcdef0123456789abcdef" "image/png" 1000
        (some "EACCES")).ret =
      Except.ok "0123456789abcdef0123456789abcdef" ∧
    ((⟨"media", [], 600000⟩ : MediaHandler).saveUploadedMedia specMimeTypes
        "0123456789abcdef0123456789abcdef" "image/png" 1000
        (some "EACCES")).fileWritten = false ∧
    ((⟨"media", [], 600000⟩ : MediaHandler).saveUploadedMedia specMimeTypes
        "0123456789abcdef0123456789abcdef" "image/png" 1000
        (some "EACCES")).callbackThrown = some "Failed to move file: EACCES" :=
  ⟨rfl, rfl, rfl⟩

/-- C8: `deleteFile` (consume) is a no-op returning no error when the id
is unknown; when the id is cached the record is removed from the index
unconditionally — also when the `unlink` of the file fails — the id no
longer resolves afterwards, and the filesystem error is only logged
(returned as the logged message), never thrown: the method has no error
outcome at all. -/
theorem C8_consume (h : MediaHandler) (fileId : String) (ue : Option String) :
    (cacheGet h.mediaCache fileId = none →
      h.deleteFile fileId ue = (h, none)) ∧
    (∀ e : CacheEntry, cacheGet h.mediaCache fileId = some e →
      (h.deleteFile fileId ue).1 =
        { h with mediaCache := cacheDelete h.mediaCache fileId } ∧
      cacheGet (h.deleteFile fileId ue).1.mediaCache fileId = none ∧
      (h.deleteFile fileId ue).2 =
        ue.map (fun s => "Failed to delete file: " ++ s)) := by
  constructor
  · intro hnone
    unfold MediaHandler.deleteFile
    rw [hnone]
  · intro e he
    unfold MediaHandler.deleteFile
    rw [he]
    exact ⟨rfl, cacheGet_cacheDelete_self _ _, rfl⟩

/-- Witness for C8: unknown id with a failing unlink is a no-op; a cached
id with a failing unlink still loses its index record. -/
theorem C8_consume_witness :
    (cacheGet (⟨"media", [], 600000⟩ : MediaHandler).mediaCache "missing" = none ∧
     (⟨"media", [], 600000⟩ : MediaHandler).deleteFile "missing" (some "EPERM") =
       (⟨"media", [], 600000⟩, none)) ∧
    (cacheGet (⟨"media", [("id1", ⟨"p", 0⟩)], 600000⟩ : MediaHandler).mediaCache
        "id1" = some ⟨"p", 0⟩ ∧
     cacheGet ((⟨"media", [("id1", ⟨"p", 0⟩)], 600000⟩ : MediaHandler).deleteFile
        "id1" (some "EPERM")).1.mediaCache "id1" = none) :=
  ⟨⟨rfl, (C8_consume ⟨"media", [], 600000⟩ "missing" (some "EPERM")).1 rfl⟩,
   ⟨rfl, ((C8_consume ⟨"media", [("id1", ⟨"p", 0⟩)], 600000⟩ "id1"
      (some "EPERM")).2 ⟨"p", 0⟩ rfl).2.1⟩⟩

theorem sweep_foldl_general (T now : Int) (es : List (String × CacheEntry))
    (c : MediaCache) (ps : List String) :
    es.foldl
      (fun (acc : MediaCache × List String) e =>
        if now - e.2.updated ≤ T then acc
        else (cacheDelete acc.1 e.1, acc.2 ++ [e.2.path]))
      (c, ps) =
    (((es.filter (fun e => !decide (now - e.2.updated ≤ T))).map Prod.fst).foldl
        cacheDelete c,
     ps ++ (es.filter (fun e => !decide (now - e.2.updated ≤ T))).map
        (fun e => e.2.path)) := by
  induction es generalizing c ps with
  | nil => simp
  | cons e rest ih =>
    rw [List.foldl_cons]
    by_cases hc : now - e.2.updated ≤ T
    · rw [if_pos hc, ih, List.filter_cons]
      have hb : (!decide (now - e.2.updated ≤ T)) = false := by
        rw [decide_eq_true hc]
        rfl
      rw [hb]
      simp
    · rw [if_neg hc, ih, List.filter_cons]
      have hb : (!decide (now - e.2.updated ≤ T)) = true := by
        rw [decide_eq_false hc]
        rfl
      rw [hb]
      simp

theorem foldl_cacheDelete_eq_filter (ks : List String) (c : MediaCache) :
    ks.foldl cacheDelete c =
      c.filter (fun p => !(ks.any (fun k2 => p.1 == k2))) := by
  induction ks generalizing c with
  | nil => simp
  | cons k rest ih =>
    rw [List.foldl_cons, ih]
    unfold cacheDelete
    rw [List.filter_filter]
    apply List.filter_congr
    intro p hp
    by_cases h : p.1 = k
    · simp [bne, h]
    · simp [bne, h, Bool.and_comm]

theorem deleteOldFiles_spec (h : MediaHandler) (now : Int)
    (hnd : CacheKeysNodup h.mediaCache) :
    (h.deleteOldFiles now).1.mediaCache =
      h.mediaCache.filter
        (fun e => decide (now - e.2.updated ≤ h.fileClearInterval)) ∧
    (h.deleteOldFiles now).2 =
      (h.mediaCache.filter
        (fun e => !decide (now - e.2.updated ≤ h.fileClearInterval))).map
        (fun e => e.2.path) := by
  unfold MediaHandler.deleteOldFiles
  rw [sweep_foldl_general h.fileClearInterval now h.mediaCache h.mediaCache []]
  refine ⟨?_, by simp⟩
  rw [foldl_cacheDelete_eq_filter]
  apply List.filter_congr
  intro p hp
  unfold CacheKeysNodup at hnd
  by_cases hp2 : now - p.2.updated ≤ h.fileClearInterval
  · have hfalse : (((h.mediaCache.filter
        (fun e => !decide (now - e.2.updated ≤ h.fileClearInterval))).map
        Prod.fst).any (fun k2 => p.1 == k2)) = false := by
      rw [Bool.eq_false_iff]
      intro hany
      rw [List.any_eq_true] at hany
      obtain ⟨k2, hk2, hbeq⟩ := hany
      obtain ⟨q, hq, rfl⟩ := List.mem_map.mp hk2
      have hqc := (List.mem_filter.mp hq).1
      have hqstale := (List.mem_filter.mp hq).2
      have hpq : p.1 = q.1 := by simpa using hbeq
      have hpeq : p = q := List.inj_on_of_nodup_map hnd hp hqc hpq
      rw [← hpeq] at hqstale
      rw [decide_eq_true hp2] at hqstale
      cases hqstale
    rw [hfalse, decide_eq_true hp2]
    rfl
  · have hmemk : p.1 ∈ (h.mediaCache.filter
        (fun e => !decide (now - e.2.updated ≤ h.fileClearInterval))).map Prod.fst :=
      List.mem_map.mpr ⟨p, List.mem_filter.mpr
        ⟨hp, by rw [decide_eq_false hp2]; rfl⟩, rfl⟩
    have htrue : (((h.mediaCache.filter
        (fun e => !decide (now - e.2.updated ≤ h.fileClearInterval))).map
        Prod.fst).any (fun k2 => p.1 == k2)) = true :=
      List.any_eq_true.mpr ⟨p.1, hmemk, by simp⟩
    rw [htrue, decide_eq_false hp2]
    rfl

theorem find_key_unique (c : MediaCache) (k : String) (e : CacheEntry)
    (hmem : (k, e) ∈ c) (huniq : ∀ q ∈ c, q.1 = k → q = (k, e)) :
    c.find? (fun p => p.1 == k) = some (k, e) := by
  induction c with
  | nil => cases hmem
  | cons hd tl ih =>
    by_cases hk : hd.1 = k
    · have heq : hd = (k, e) := huniq hd (List.mem_cons_self _ _) hk
      subst heq
      simp [List.find?_cons]
    · have hb : (hd.1 == k) = false := by
        rw [beq_eq_false_iff_ne]
        exact hk
      rw [List.find?_cons, hb]
      apply ih
      · rcases List.mem_cons.mp hmem with h' | h'
        · subst h'
          exact absurd rfl hk
        · exact h'
      · intro q hq hqk
        exact huniq q (List.mem_cons_of_mem _ hq) hqk

/-- Per-entry behaviour of the sweep on a cache with distinct keys. -/
theorem sweep_entry_spec (h : MediaHandler) (now : Int) (k : String)
    (e : CacheEntry) (hnd : CacheKeysNodup h.mediaCache)
    (hmem : (k, e) ∈ h.mediaCache) :
    (h.fileClearInterval < now - e.updated →
      cacheGet (h.deleteOldFiles now).1.mediaCache k = none ∧
      e.path ∈ (h.deleteOldFiles now).2) ∧
    (now - e.updated ≤ h.fileClearInterval →
      cacheGet (h.deleteOldFiles now).1.mediaCache k = some e) := by
  obtain ⟨hcache, hpaths⟩ := deleteOldFiles_spec h now hnd
  constructor
  · intro hstale
    constructor
    · rw [hcache]
      unfold cacheGet
      have hnone : (h.mediaCache.filter
          (fun q => decide (now - q.2.updated ≤ h.fileClearInterval))).find?
          (fun p => p.1 == k) = none := by
        rw [List.find?_eq_none]
        intro q hq hbeq
        have hqc := (List.mem_filter.mp hq).1
        have hqfresh := (List.mem_filter.mp hq).2
        have hqk : q.1 = (k, e).1 := by simpa using hbeq
        have hqe : q = (k, e) := List.inj_on_of_nodup_map hnd hqc hmem hqk
        rw [hqe] at hqfresh
        simp only [decide_eq_true_eq] at hqfresh
        omega
      rw [hnone]
      rfl
    · rw [hpaths]
      exact List.mem_map.mpr ⟨(k, e), List.mem_filter.mpr
        ⟨hmem, by simp only [Bool.not_eq_eq_eq_not, Bool.not_true,
          decide_eq_false_iff_not]; omega⟩, rfl⟩
  · intro hfresh
    rw [hcache]
    unfold cacheGet
    rw [find_key_unique _ k e
      (List.mem_filter.mpr ⟨hmem, by simp only [decide_eq_true_eq]; omega⟩)
      (fun q hq hqk => by
        have hqc := (List.mem_filter.mp hq).1
        exact List.inj_on_of_nodup_map hnd hqc hmem hqk)]
    rfl

/-- C6: for a cache whose keys are distinct (as a JavaScript object's
are), the sweep at time `now` with idle threshold `T = _fileClearInterval`
evicts exactly the entries with `now - updated > T`: such an entry's file
deletion is attempted and its key no longer resolves, while an entry with
`now - updated ≤ T` still resolves to its unchanged record.  The boundary
`now - updated = T` falls in the second case: the entry is retained, the
source's fixed choice (`continue` on `now - file.updated <=
this._fileClearInterval`). -/
theorem C6_sweep_eviction (h : MediaHandler) (now : Int) (k : String)
    (e : CacheEntry) (hnd : CacheKeysNodup h.mediaCache)
    (hmem : (k, e) ∈ h.mediaCache) :
    (h.fileClearInterval < now - e.updated →
      cacheGet (h.deleteOldFiles now).1.mediaCache k = none ∧
      e.path ∈ (h.deleteOldFiles now).2) ∧
    (now - e.updated ≤ h.fileClearInterval →
      cacheGet (h.deleteOldFiles now).1.mediaCache k = some e) :=
  sweep_entry_spec h now k e hnd hmem

/-- Witness for C6: with threshold 100 at time 1000, the entry last
touched at 0 (idle 1000 > 100) is evicted with its deletion attempted,
and the entry last touched at 900 (idle exactly 100) is retained. -/
theorem C6_sweep_eviction_witness :
    (cacheGet ((⟨"media", [("old", ⟨"old.png", 0⟩), ("edge", ⟨"edge.png", 900⟩)],
        100⟩ : MediaHandler).deleteOldFiles 1000).1.mediaCache "old" = none ∧
     "old.png" ∈ ((⟨"media", [("old", ⟨"old.png", 0⟩), ("edge", ⟨"edge.png", 900⟩)],
        100⟩ : MediaHandler).deleteOldFiles 1000).2) ∧
    cacheGet ((⟨"media", [("old", ⟨"old.png", 0⟩), ("edge", ⟨"edge.png", 900⟩)],
        100⟩ : MediaHandler).deleteOldFiles 1000).1.mediaCache "edge" =
      some ⟨"edge.png", 900⟩ :=
  ⟨(C6_sweep_eviction ⟨"media", [("old", ⟨"old.png", 0⟩), ("edge", ⟨"edge.png", 900⟩)], 100⟩
      1000 "old" ⟨"old.png", 0⟩ (by decide) (by decide)).1 (by decide),
   (C6_sweep_eviction ⟨"media", [("old", ⟨"old.png", 0⟩), ("edge", ⟨"edge.png", 900⟩)], 100⟩
      1000 "edge" ⟨"edge.png", 900⟩ (by decide) (by decide)).2 (by decide)⟩

theorem no_key_of_cacheGet_none (c : MediaCache) (k : String)
    (hfresh : cacheGet c k = none) : ∀ q ∈ c, q.1 ≠ k := by
  intro q hq hqk
  unfold cacheGet at hfresh
  rw [Option.map_eq_none'] at hfresh
  rw [List.find?_eq_none] at hfresh
  exact hfresh q hq (by simpa using hqk)

theorem cacheSet_fresh (c : MediaCache) (k : String) (v : CacheEntry)
    (hfresh : cacheGet c k = none) :
    cacheSet c k v = c ++ [(k, v)] := by
  unfold cacheSet
  have hany : c.any (fun p => p.1 == k) = false := by
    rw [Bool.eq_false_iff]
    intro hany
    rw [List.any_eq_true] at hany
    obtain ⟨p, hp, hbeq⟩ := hany
    exact no_key_of_cacheGet_none c k hfresh p hp (by simpa using hbeq)
  rw [hany]
  simp

theorem cacheKeysNodup_append_fresh (c : MediaCache) (k : String)
    (v : CacheEntry) (hnd : CacheKeysNodup c)
    (hfresh : cacheGet c k = none) :
    CacheKeysNodup (c ++ [(k, v)]) := by
  show ((c ++ [(k, v)]).map Prod.fst).Nodup
  rw [List.map_append, List.nodup_append]
  refine ⟨hnd, List.nodup_singleton _, ?_⟩
  intro a ha ha'
  simp only [List.map_cons, List.map_nil, List.mem_singleton] at ha'
  subst ha'
  obtain ⟨q, hq, hqk⟩ := List.mem_map.mp ha
  exact no_key_of_cacheGet_none c a hfresh q hq hqk

theorem cacheGet_append_fresh (c : MediaCache) (k : String) (v : CacheEntry)
    (hfresh : cacheGet c k = none) :
    cacheGet (c ++ [(k, v)]) k = some v := by
  unfold cacheGet
  rw [find_key_unique (c ++ [(k, v)]) k v
    (List.mem_append_right _ (List.mem_singleton.mpr rfl))
    (fun q hq hqk => by
      rcases List.mem_append.mp hq with h' | h'
      · exact absurd hqk (no_key_of_cacheGet_none c k hfresh q h')
      · exact List.mem_singleton.mp h')]
  rfl

/-- C7: an id minted by a successful `saveUploadedMedia` resolves through
`getFilePath` to the non-empty path the record was saved under; after
`deleteFile` of that id (consume) or a sweep that evicts it (idle beyond
the threshold) it no longer resolves, while a sweep that does not reach
its idle threshold leaves it resolving to the same path. -/
theorem C7_resolve_lifecycle (h : MediaHandler) (table : List MimeTypeMap)
    (fid mt ext : String) (now : Int) (mv : Option String)
    (hext : getFileExtension table mt = Except.ok ext)
    (hfresh : cacheGet h.mediaCache fid = none)
    (hnd : CacheKeysNodup h.mediaCache) :
    (h.saveUploadedMedia table fid mt now mv).ret = Except.ok fid ∧
    (h.saveUploadedMedia table fid mt now mv).state.getFilePath fid =
      some (h.getOutgoingMediaDirectory ++ "/" ++ fid ++ "." ++ ext) ∧
    h.getOutgoingMediaDirectory ++ "/" ++ fid ++ "." ++ ext ≠ "" ∧
    (∀ ue : Option String,
      ((h.saveUploadedMedia table fid mt now mv).state.deleteFile fid
        ue).1.getFilePath fid = none) ∧
    (∀ now2 : Int, h.fileClearInterval < now2 - now →
      ((h.saveUploadedMedia table fid mt now mv).state.deleteOldFiles
        now2).1.getFilePath fid = none) ∧
    (∀ now2 : Int, now2 - now ≤ h.fileClearInterval →
      ((h.saveUploadedMedia table fid mt now mv).state.deleteOldFiles
        now2).1.getFilePath fid =
        some (h.getOutgoingMediaDirectory ++ "/" ++ fid ++ "." ++ ext)) := by
  have hstate : (h.saveUploadedMedia table fid mt now mv).state =
      { h with mediaCache := h.mediaCache ++
          [(fid, ⟨h.getOutgoingMediaDirectory ++ "/" ++ fid ++ "." ++ ext, now⟩)] } := by
    unfold MediaHandler.saveUploadedMedia
    rw [hext]
    simp only []
    rw [cacheSet_fresh h.mediaCache fid _ hfresh]
  have hret : (h.saveUploadedMedia table fid mt now mv).ret = Except.ok fid := by
    unfold MediaHandler.saveUploadedMedia
    rw [hext]
  have hget : cacheGet (h.mediaCache ++
      [(fid, ⟨h.getOutgoingMediaDirectory ++ "/" ++ fid ++ "." ++ ext, now⟩)]) fid =
      some ⟨h.getOutgoingMediaDirectory ++ "/" ++ fid ++ "." ++ ext, now⟩ :=
    cacheGet_append_fresh h.mediaCache fid _ hfresh
  have hnd2 : CacheKeysNodup (h.mediaCache ++
      [(fid, ⟨h.getOutgoingMediaDirectory ++ "/" ++ fid ++ "." ++ ext, now⟩)]) :=
    cacheKeysNodup_append_fresh h.mediaCache fid _ hnd hfresh
  have hmem2 : (fid, (⟨h.getOutgoingMediaDirectory ++ "/" ++ fid ++ "." ++ ext, now⟩ :
      CacheEntry)) ∈ h.mediaCache ++
      [(fid, ⟨h.getOutgoingMediaDirectory ++ "/" ++ fid ++ "." ++ ext, now⟩)] :=
    List.mem_append_right _ (List.mem_singleton.mpr rfl)
  refine ⟨hret, ?_, ?_, ?_, ?_, ?_⟩
  · rw [hstate]
    unfold MediaHandler.getFilePath
    rw [hget]
    rfl
  · intro hemp
    have hlen := congrArg String.length hemp
    simp only [String.length_append] at hlen
    have h1 : ("/" : String).length = 1 := rfl
    have h2 : ("." : String).length = 1 := rfl
    have h0 : ("" : String).length = 0 := rfl
    rw [h1, h2, h0] at hlen
    omega
  · intro ue
    rw [hstate]
    unfold MediaHandler.deleteFile
    rw [show cacheGet ({ h with mediaCache := h.mediaCache ++
        [(fid, ⟨h.getOutgoingMediaDirectory ++ "/" ++ fid ++ "." ++ ext, now⟩)] } :
        MediaHandler).mediaCache fid =
        some ⟨h.getOutgoingMediaDirectory ++ "/" ++ fid ++ "." ++ ext, now⟩ from hget]
    unfold MediaHandler.getFilePath
    rw [show cacheGet (cacheDelete (h.mediaCache ++
        [(fid, ⟨h.getOutgoingMediaDirectory ++ "/" ++ fid ++ "." ++ ext, now⟩)]) fid)
        fid = none from cacheGet_cacheDelete_self _ _]
    rfl
  · intro now2 hlate
    rw [hstate]
    have := (sweep_entry_spec
      { h with mediaCache := h.mediaCache ++
          [(fid, ⟨h.getOutgoingMediaDirectory ++ "/" ++ fid ++ "." ++ ext, now⟩)] }
      now2 fid ⟨h.getOutgoingMediaDirectory ++ "/" ++ fid ++ "." ++ ext, now⟩
      hnd2 hmem2).1 hlate
    unfold MediaHandler.getFilePath
    rw [this.1]
    rfl
  · intro now2 hearly
    rw [hstate]
    have := (sweep_entry_spec
      { h with mediaCache := h.mediaCache ++
          [(fid, ⟨h.getOutgoingMediaDirectory ++ "/" ++ fid ++ "." ++ ext, now⟩)] }
      now2 fid ⟨h.getOutgoingMediaDirectory ++ "/" ++ fid ++ "." ++ ext, now⟩
      hnd2 hmem2).2 hearly
    unfold MediaHandler.getFilePath
    rw [this]
    rfl

/-- Witness for C7: the spec's scenario — upload an "image/png", resolve,
consume (or sweep), resolve again. -/
theorem C7_resolve_lifecycle_witness :
    getFileExtension specMimeTypes "image/png" = Except.ok "png" ∧
    cacheGet (⟨"m", [], 100⟩ : MediaHandler).mediaCache "f1" = none ∧
    (((⟨"m", [], 100⟩ : MediaHandler).saveUploadedMedia specMimeTypes "f1"
        "image/png" 0 none).ret = Except.ok "f1" ∧
     ((⟨"m", [], 100⟩ : MediaHandler).saveUploadedMedia specMimeTypes "f1"
        "image/png" 0 none).state.getFilePath "f1" =
       some ((⟨"m", [], 100⟩ : MediaHandler).getOutgoingMediaDirectory ++
         "/" ++ "f1" ++ "." ++ "png") ∧
     (⟨"m", [], 100⟩ : MediaHandler).getOutgoingMediaDirectory ++ "/" ++
       "f1" ++ "." ++ "png" ≠ "" ∧
     (∀ ue : Option String,
       (((⟨"m", [], 100⟩ : MediaHandler).saveUploadedMedia specMimeTypes "f1"
          "image/png" 0 none).state.deleteFile "f1" ue).1.getFilePath "f1" =
         none) ∧
     (∀ now2 : Int, (⟨"m", [], 100⟩ : MediaHandler).fileClearInterval < now2 - 0 →
       (((⟨"m", [], 100⟩ : MediaHandler).saveUploadedMedia specMimeTypes "f1"
          "image/png" 0 none).state.deleteOldFiles now2).1.getFilePath "f1" =
         none) ∧
     (∀ now2 : Int, now2 - 0 ≤ (⟨"m", [], 100⟩ : MediaHandler).fileClearInterval →
       (((⟨"m", [], 100⟩ : MediaHandler).saveUploadedMedia specMimeTypes "f1"
          "image/png" 0 none).state.deleteOldFiles now2).1.getFilePath "f1" =
         some ((⟨"m", [], 100⟩ : MediaHandler).getOutgoingMediaDirectory ++
           "/" ++ "f1" ++ "." ++ "png"))) :=
  ⟨rfl, rfl,
   C7_resolve_lifecycle ⟨"m", [], 100⟩ specMimeTypes "f1" "image/png" "png"
     0 none rfl rfl List.nodup_nil⟩
